import Mathlib

/-!
Retry discipline of the ISOBUS stack: ETP sessions, VT managed working sets,
and the Innomaker USB2CAN frame driver.

Shallow embedding of

* `isobus/isobus/can_extended_transport_protocol.hpp`
  (`ExtendedTransportProtocolManager::ExtendedTransportProtocolSession`),
* `isobus/isobus/isobus_virtual_terminal_server_managed_working_set.hpp`
  (`VirtualTerminalServerManagedWorkingSet`),
* `hardware_integration/src/innomaker_usb2can_windows_plugin.cpp`
  (`InnomakerUSB2CANWindowsPlugin`).

Machine integers are natural numbers; every place where the C++ code could
wrap (`std::uint8_t`, `std::uint32_t`) carries an explicit `% 2^w`.
-/

namespace isobus

/-! ## ETP session: retry helpers (`can_extended_transport_protocol.hpp`) -/

/-- The constant `static constexpr std::uint8_t DEFAULT_MAX_RETRY_ATTEMPTS = 3`. -/
def ExtendedTransportProtocolSession.DEFAULT_MAX_RETRY_ATTEMPTS : Nat := 3

/-- The retry members of `ExtendedTransportProtocolSession`
(`std::uint8_t retry_attempts = 0`,
`std::uint8_t max_retry_attempts = DEFAULT_MAX_RETRY_ATTEMPTS`).  The other
members of the session are elided in the header and are not touched by any of
the retry helpers. -/
structure ExtendedTransportProtocolSession where
  retry_attempts : Nat := 0
  max_retry_attempts : Nat := ExtendedTransportProtocolSession.DEFAULT_MAX_RETRY_ATTEMPTS
deriving DecidableEq, Repr

namespace ExtendedTransportProtocolSession

/-- The defaulted constructor `ExtendedTransportProtocolSession() = default`:
the default member initialisers apply. -/
def new : ExtendedTransportProtocolSession := {}

/-- The getter `get_retry_attempts() const { return retry_attempts; }`. -/
def get_retry_attempts (s : ExtendedTransportProtocolSession) : Nat :=
  s.retry_attempts

/-- The helper `reset_retry_attempts() { retry_attempts = 0; }`. -/
def reset_retry_attempts (s : ExtendedTransportProtocolSession) :
    ExtendedTransportProtocolSession :=
  { s with retry_attempts := 0 }

/-- The helper
`increment_retry_attempts() { if (retry_attempts < max_retry_attempts) { ++retry_attempts; } }`;
the pre-increment on a `std::uint8_t` is taken modulo `2^8`. -/
def increment_retry_attempts (s : ExtendedTransportProtocolSession) :
    ExtendedTransportProtocolSession :=
  if s.retry_attempts < s.max_retry_attempts then
    { s with retry_attempts := (s.retry_attempts + 1) % 2 ^ 8 }
  else
    s

/-- The getter `get_max_retry_attempts() const { return max_retry_attempts; }`. -/
def get_max_retry_attempts (s : ExtendedTransportProtocolSession) : Nat :=
  s.max_retry_attempts

/-- The setter `set_max_retry_attempts(std::uint8_t v) { max_retry_attempts = v; }`;
the argument is converted to `std::uint8_t`, hence the `% 2^8`. -/
def set_max_retry_attempts (s : ExtendedTransportProtocolSession) (v : Nat) :
    ExtendedTransportProtocolSession :=
  { s with max_retry_attempts := v % 2 ^ 8 }

/-- One call of a public retry operation. -/
inductive RetryOp where
  | reset
  | increment
  | setMax (v : Nat)
deriving DecidableEq, Repr

/-- Effect of one public retry operation on a session. -/
def RetryOp.apply (s : ExtendedTransportProtocolSession) :
    RetryOp → ExtendedTransportProtocolSession
  | .reset => s.reset_retry_attempts
  | .increment => s.increment_retry_attempts
  | .setMax v => s.set_max_retry_attempts v

/-- Effect of a finite sequence of public retry operations, first call first. -/
def run (s : ExtendedTransportProtocolSession) (ops : List RetryOp) :
    ExtendedTransportProtocolSession :=
  ops.foldl RetryOp.apply s

/-- A call sequence never lowers the cap below the current counter: every
`set_max_retry_attempts(v)` in it is made with `v` at least the value of
`retry_attempts` at the time of the call. -/
def capNotLowered : ExtendedTransportProtocolSession → List RetryOp → Bool
  | _, [] => true
  | s, .setMax v :: ops =>
      decide (s.retry_attempts ≤ v % 2 ^ 8) && capNotLowered (s.set_max_retry_attempts v) ops
  | s, op :: ops => capNotLowered (op.apply s) ops

/-- What a timeout in a waiting state does to the session. -/
inductive TimeoutOutcome where
  | retried (s : ExtendedTransportProtocolSession)
  | aborted (reason : Nat)
deriving DecidableEq, Repr

/-- Modelled from the spec: the timeout branch of the ETP manager's state
machine, whose implementation is not part of the header.  "If retry_attempts <
max_retry_attempts: increment_retry_attempts(); reset the timeout timestamp;
re-send the last outbound control frame.  Else: abort the session with
connection-abort reason code 3 (timeout) and emit an ETP.CM_Abort frame." -/
def on_timeout (s : ExtendedTransportProtocolSession) : TimeoutOutcome :=
  if s.get_retry_attempts < s.get_max_retry_attempts then
    .retried s.increment_retry_attempts
  else
    .aborted 3

/-- Modelled from the spec: `n` consecutive timeouts handled by `on_timeout`;
`none` once the session has been aborted ("the manager removes the session
immediately"). -/
def after_timeouts (s : ExtendedTransportProtocolSession) :
    Nat → Option ExtendedTransportProtocolSession
  | 0 => some s
  | n + 1 =>
    match after_timeouts s n with
    | none => none
    | some t =>
      match on_timeout t with
      | .retried u => some u
      | .aborted _ => none

end ExtendedTransportProtocolSession

/-! ## VT managed working set
(`isobus_virtual_terminal_server_managed_working_set.hpp`) -/

namespace VirtualTerminalServerManagedWorkingSet

/-- The enumeration `ObjectPoolProcessingThreadState`. -/
inductive ObjectPoolProcessingThreadState where
  | None
  | Running
  | Success
  | Fail
  | Joined
deriving DecidableEq, Repr

/-- The constant `static constexpr std::uint8_t MAX_RETRY_COUNT = 3`, as the
header declares it. -/
def MAX_RETRY_COUNT : Nat := 3

end VirtualTerminalServerManagedWorkingSet

/-- The scalar members of `VirtualTerminalServerManagedWorkingSet` with the
default member initialisers of the header.  The control function, object list,
raw IOP chunks, callback handles, focused object, worker thread and mutex are
not read or written by the failure-tracking operations and are left out. -/
structure VirtualTerminalServerManagedWorkingSet where
  iopSize : Nat := 0
  transferredIopSize : Nat := 0
  workingSetMaintenanceMessageTimestamp_ms : Nat := 0
  auxiliaryInputMaintenanceMessageTimestamp_ms : Nat := 0
  processingState :
    VirtualTerminalServerManagedWorkingSet.ObjectPoolProcessingThreadState := .None
  wasLoadedFromNonVolatileMemory : Bool := false
  workingSetDeletionRequested : Bool := false
  failedObjectPoolSize : Nat := 0
  retryCount : Nat := 0
deriving DecidableEq, Repr

namespace VirtualTerminalServerManagedWorkingSet

/-- Modelled from the spec: the constructor, whose body is not in the header.
"initially has_failed_object_pool_transfer()==false" and the retry count is
zero; the members take the default initialisers the header gives them. -/
def new : VirtualTerminalServerManagedWorkingSet := {}

/-- Modelled from the spec: `track_failed_object_pool_transfer(dataSize)`,
declared in the header without a body.  "records failure for a future restart":
"the working set records failed_object_pool_size".  The argument is a
`std::uint32_t`. -/
def track_failed_object_pool_transfer (w : VirtualTerminalServerManagedWorkingSet)
    (dataSize : Nat) : VirtualTerminalServerManagedWorkingSet :=
  { w with failedObjectPoolSize := dataSize % 2 ^ 32 }

/-- Modelled from the spec: `has_failed_object_pool_transfer()`, declared in
the header without a body.  "has_failed_transfer ⇔ failed_object_pool_size > 0". -/
def has_failed_object_pool_transfer (w : VirtualTerminalServerManagedWorkingSet) : Bool :=
  decide (0 < w.failedObjectPoolSize)

/-- Modelled from the spec: `get_failed_object_pool_size()`, declared in the
header without a body; it reads `failed_object_pool_size`. -/
def get_failed_object_pool_size (w : VirtualTerminalServerManagedWorkingSet) : Nat :=
  w.failedObjectPoolSize

/-- Modelled from the spec: `clear_failed_object_pool_transfer()`, declared in
the header without a body.  "clear_failed_transfer resets
failed_object_pool_size, retry_count, and any transient restart flags" (the
header has no further restart flag). -/
def clear_failed_object_pool_transfer (w : VirtualTerminalServerManagedWorkingSet) :
    VirtualTerminalServerManagedWorkingSet :=
  { w with failedObjectPoolSize := 0, retryCount := 0 }

/-- Modelled from the spec: `increment_retry_count()`, declared in the header
without a body.  "increment_retry_count() saturates at MAX_RETRY_COUNT"; the cap
is the constant of the header and the counter is a `std::uint8_t`. -/
def increment_retry_count (w : VirtualTerminalServerManagedWorkingSet) :
    VirtualTerminalServerManagedWorkingSet :=
  if w.retryCount < MAX_RETRY_COUNT then
    { w with retryCount := (w.retryCount + 1) % 2 ^ 8 }
  else
    w

/-- Modelled from the spec: `get_retry_count()`, declared in the header without
a body; it reads `retry_count`. -/
def get_retry_count (w : VirtualTerminalServerManagedWorkingSet) : Nat :=
  w.retryCount

/-- Modelled from the spec: `reset_retry_count()`, declared in the header
without a body ("Resets the retry count for failed object pool transfers"). -/
def reset_retry_count (w : VirtualTerminalServerManagedWorkingSet) :
    VirtualTerminalServerManagedWorkingSet :=
  { w with retryCount := 0 }

/-- One call of a failure-tracking operation of the working set. -/
inductive TrackingOp where
  | increment
  | reset
  | track (dataSize : Nat)
  | clear
deriving DecidableEq, Repr

/-- Effect of one failure-tracking operation. -/
def TrackingOp.apply (w : VirtualTerminalServerManagedWorkingSet) :
    TrackingOp → VirtualTerminalServerManagedWorkingSet
  | .increment => w.increment_retry_count
  | .reset => w.reset_retry_count
  | .track n => w.track_failed_object_pool_transfer n
  | .clear => w.clear_failed_object_pool_transfer

/-- Effect of a finite sequence of failure-tracking operations, first call first. -/
def run (w : VirtualTerminalServerManagedWorkingSet) (ops : List TrackingOp) :
    VirtualTerminalServerManagedWorkingSet :=
  ops.foldl TrackingOp.apply w

end VirtualTerminalServerManagedWorkingSet

end isobus

/-! ## Innomaker USB2CAN Windows plugin
(`innomaker_usb2can_windows_plugin.cpp`) -/

namespace isobus

/-- Modelled from the spec: the frame type `isobus::HardwareInterfaceCANFrame`
of `can_frame.hpp`, which is not among the sources.  "CAN Frame: identifier,
channel: u8, dataLength, data: 8-byte buffer, timestamp_us: u32,
isExtendedFrame: bool"; these are exactly the members `read_frame` assigns. -/
structure HardwareInterfaceCANFrame where
  identifier : Nat
  channel : Nat
  dataLength : Nat
  data : List Nat
  timestamp_us : Nat
  isExtendedFrame : Bool
deriving DecidableEq, Repr

end isobus

namespace InnoMakerUsb2CanLib

/-- The device handle `InnoMakerUsb2CanLib::InnoMakerDevice` of the vendor
library; the plugin only passes it around. -/
structure InnoMakerDevice where
  handle : Nat
deriving DecidableEq, Repr

/-- Modelled from the spec: the size `sizeof(InnoMakerUsb2CanLib::innomaker_host_frame)`
of the vendor library's host frame, whose declaration is not among the sources.
The frame driver exchanges "fixed-layout" frames; the layout `write_frame` fills
is `echo_id`, `can_id` (4 bytes each), `can_dlc`, `channel`, `flags`, `reserved`
(1 byte each), `data[8]`, and `read_frame` reads a 4-byte timestamp at the
offsets 20 to 23, the last bytes of the buffer. -/
def hostFrameSize : Nat := 24

end InnoMakerUsb2CanLib

/-- The two calls of the vendor library `InnoMakerUsb2CanLib` that `read_frame`
makes on `driverInstance`, taken as parameters: the device lookup (`none` is
`nullptr`) and the receive call, which is given the buffer, its size and the
timeout and hands back its boolean result together with the buffer as it left
it. -/
structure InnoMakerUsb2CanLib where
  getInnoMakerDevice : Int → Option InnoMakerUsb2CanLib.InnoMakerDevice
  recvInnoMakerDeviceBuf :
    InnoMakerUsb2CanLib.InnoMakerDevice → List Nat → Nat → Nat → Bool × List Nat

/-- The non-static member of `InnomakerUSB2CANWindowsPlugin`: `int myChannel`. -/
structure InnomakerUSB2CANWindowsPlugin where
  myChannel : Int
deriving DecidableEq, Repr

namespace InnomakerUSB2CANWindowsPlugin

/-- The value of `recvBuffer[i]`. -/
def byteAt (recvBuffer : List Nat) (i : Nat) : Nat :=
  recvBuffer.getD i 0

/-- A buffer of `sizeof(innomaker_host_frame)` elements of type `BYTE`. -/
def IsHostFrameBuffer (recvBuffer : List Nat) : Prop :=
  recvBuffer.length = InnoMakerUsb2CanLib.hostFrameSize ∧ ∀ b ∈ recvBuffer, b < 2 ^ 8

instance (recvBuffer : List Nat) : Decidable (IsHostFrameBuffer recvBuffer) := by
  unfold IsHostFrameBuffer; infer_instance

/-- The expression
`static_cast<std::uint32_t>(recvBuffer[o]) | (static_cast<std::uint32_t>(recvBuffer[o + 1]) << 8)
| (static_cast<std::uint32_t>(recvBuffer[o + 2]) << 16)
| (static_cast<std::uint32_t>(recvBuffer[o + 3]) << 24)`
that `read_frame` evaluates at `o = 4` and `o = 20`; each shift is a
`std::uint32_t` shift, hence the `% 2^32`. -/
def readU32 (recvBuffer : List Nat) (o : Nat) : Nat :=
  byteAt recvBuffer o |||
    ((byteAt recvBuffer (o + 1) <<< 8) % 2 ^ 32) |||
    ((byteAt recvBuffer (o + 2) <<< 16) % 2 ^ 32) |||
    ((byteAt recvBuffer (o + 3) <<< 24) % 2 ^ 32)

/-- The method `get_is_valid() const { return true; }`. -/
def get_is_valid (_self : InnomakerUSB2CANWindowsPlugin) : Bool :=
  true

/-- The method `read_frame(canFrame)`: the returned pair is `retVal` and the
caller's frame after the call.  Without a device nothing is assigned; with a
device the buffer is zero-filled, handed to the receive call with the timeout
1000, and the frame is assigned from the buffer whatever the call returned. -/
def read_frame (driverInstance : InnoMakerUsb2CanLib) (self : InnomakerUSB2CANWindowsPlugin)
    (canFrame : isobus.HardwareInterfaceCANFrame) : Bool × isobus.HardwareInterfaceCANFrame :=
  match driverInstance.getInnoMakerDevice self.myChannel with
  | none => (false, canFrame)
  | some device =>
    let zeroed := List.replicate InnoMakerUsb2CanLib.hostFrameSize 0
    let received :=
      driverInstance.recvInnoMakerDeviceBuf device zeroed InnoMakerUsb2CanLib.hostFrameSize 1000
    let recvBuffer := received.2
    (received.1,
      { canFrame with
        channel := byteAt recvBuffer 9
        dataLength := byteAt recvBuffer 8
        identifier := readU32 recvBuffer 4
        isExtendedFrame := true
        timestamp_us := readU32 recvBuffer 20
        data := (List.range 8).map fun i => byteAt recvBuffer (12 + i) })

/-- The buffer as the receive call of `read_frame` leaves it: the second
component of `recvInnoMakerDeviceBuf(device, recvBuffer, sizeof(innomaker_host_frame), 1000)`
on the zero-filled buffer. -/
def receivedBuffer (driverInstance : InnoMakerUsb2CanLib)
    (device : InnoMakerUsb2CanLib.InnoMakerDevice) : List Nat :=
  (driverInstance.recvInnoMakerDeviceBuf device
    (List.replicate InnoMakerUsb2CanLib.hostFrameSize 0) InnoMakerUsb2CanLib.hostFrameSize 1000).2

/-- A driver that knows no device on any channel. -/
def noDeviceDriver : InnoMakerUsb2CanLib where
  getInnoMakerDevice := fun _ => none
  recvInnoMakerDeviceBuf := fun _ buf _ _ => (false, buf)

/-- A driver with one device on every channel whose receive call succeeds and
fills the buffer with the given bytes. -/
def fixedBufferDriver (bytes : List Nat) : InnoMakerUsb2CanLib where
  getInnoMakerDevice := fun _ => some ⟨0⟩
  recvInnoMakerDeviceBuf := fun _ _ _ _ => (true, bytes)

/-- A host frame whose `can_id` bytes 4 to 7 are `00 00 00 20` and whose
`can_dlc` byte 8 is `09`; all other bytes are zero. -/
def oversizedBuffer : List Nat :=
  [0, 0, 0, 0, 0x00, 0x00, 0x00, 0x20, 9, 0, 0, 0, 0, 0, 0, 0, 0, 0, 0, 0, 0, 0, 0, 0]

/-- A host frame with `can_id` bytes `FE FF EA 18`, `can_dlc` 8, channel 0,
data bytes 1 to 8 and timestamp bytes `10 27 00 00`. -/
def sampleBuffer : List Nat :=
  [0, 0, 0, 0, 0xFE, 0xFF, 0xEA, 0x18, 8, 0, 0, 0, 1, 2, 3, 4, 5, 6, 7, 8, 0x10, 0x27, 0, 0]

/-- A frame as a caller may hold it before `read_frame`. -/
def blankFrame : isobus.HardwareInterfaceCANFrame :=
  { identifier := 0, channel := 0, dataLength := 0, data := [0, 0, 0, 0, 0, 0, 0, 0],
    timestamp_us := 0, isExtendedFrame := false }

/-- The boolean that the receive call of `read_frame` returns: the first
component of `recvInnoMakerDeviceBuf(device, recvBuffer, sizeof(innomaker_host_frame), 1000)`
on the zero-filled buffer. -/
def receiveResult (driverInstance : InnoMakerUsb2CanLib)
    (device : InnoMakerUsb2CanLib.InnoMakerDevice) : Bool :=
  (driverInstance.recvInnoMakerDeviceBuf device
    (List.replicate InnoMakerUsb2CanLib.hostFrameSize 0) InnoMakerUsb2CanLib.hostFrameSize 1000).1

/-- Byte `i` of the little-endian encoding of `v`: the bits `8 * i` to
`8 * i + 7` of `v`. -/
def littleEndianByte (v i : Nat) : Nat :=
  v / 2 ^ (8 * i) % 2 ^ 8

/-- A driver with one device on every channel whose receive call fails and
leaves the buffer as it was given. -/
def idleDriver : InnoMakerUsb2CanLib where
  getInnoMakerDevice := fun _ => some ⟨0⟩
  recvInnoMakerDeviceBuf := fun _ buf _ _ => (false, buf)

/-- The frame all of whose members `read_frame` assigns from a zero-filled
buffer: every number 0, eight data bytes 0, and `isExtendedFrame` set. -/
def zeroFilledFrame : isobus.HardwareInterfaceCANFrame :=
  { identifier := 0, channel := 0, dataLength := 0, data := [0, 0, 0, 0, 0, 0, 0, 0],
    timestamp_us := 0, isExtendedFrame := true }

/-- A frame a caller may hold from an earlier successful read. -/
def earlierFrame : isobus.HardwareInterfaceCANFrame :=
  { identifier := 0x18EAFFFE, channel := 1, dataLength := 3, data := [9, 8, 7, 0, 0, 0, 0, 0],
    timestamp_us := 500, isExtendedFrame := false }

end InnomakerUSB2CANWindowsPlugin

/-! ## Theorems: ETP session -/

namespace isobus

namespace ExtendedTransportProtocolSession

theorem increment_le_max (s : ExtendedTransportProtocolSession)
    (h : s.retry_attempts ≤ s.max_retry_attempts) :
    s.increment_retry_attempts.retry_attempts ≤ s.increment_retry_attempts.max_retry_attempts := by
  unfold increment_retry_attempts
  split
  · simp only
    have := Nat.mod_le (s.retry_attempts + 1) (2 ^ 8)
    omega
  · exact h

theorem apply_le_max (s : ExtendedTransportProtocolSession) (op : RetryOp)
    (h : s.retry_attempts ≤ s.max_retry_attempts)
    (hop : capNotLowered s [op] = true) :
    (op.apply s).retry_attempts ≤ (op.apply s).max_retry_attempts := by
  cases op with
  | reset => simp [RetryOp.apply, reset_retry_attempts]
  | increment => exact increment_le_max s h
  | setMax v =>
    simp only [capNotLowered, Bool.and_true, decide_eq_true_eq] at hop
    simpa [RetryOp.apply, set_max_retry_attempts] using hop

theorem capNotLowered_cons (s : ExtendedTransportProtocolSession) (op : RetryOp)
    (ops : List RetryOp) :
    capNotLowered s (op :: ops) = (capNotLowered s [op] && capNotLowered (op.apply s) ops) := by
  cases op <;> simp [capNotLowered, RetryOp.apply]

theorem run_take_le_max (ops : List RetryOp) :
    ∀ (s : ExtendedTransportProtocolSession), s.retry_attempts ≤ s.max_retry_attempts →
      capNotLowered s ops = true → ∀ k : Nat,
        (run s (ops.take k)).retry_attempts ≤ (run s (ops.take k)).max_retry_attempts := by
  induction ops with
  | nil => intro s h _ k; simpa [run] using h
  | cons op ops ih =>
    intro s h hc k
    rw [capNotLowered_cons, Bool.and_eq_true] at hc
    cases k with
    | zero => simpa [run] using h
    | succ k =>
      have := ih (op.apply s) (apply_le_max s op h hc.1) hc.2 k
      simpa [run] using this

/-- C1 (as the claim states it, refuted): from a freshly constructed session,
`increment_retry_attempts()` followed by `set_max_retry_attempts(0)` reaches a
state with `get_retry_attempts() = 1 > 0 = get_max_retry_attempts()`. -/
theorem C1_lowering_the_cap_breaks_the_bound :
    ¬ ((run new [RetryOp.increment, RetryOp.setMax 0]).get_retry_attempts ≤
        (run new [RetryOp.increment, RetryOp.setMax 0]).get_max_retry_attempts) := by
  decide

/-- C1 (amended): for every finite sequence of `reset_retry_attempts`,
`increment_retry_attempts` and `set_max_retry_attempts(v)` calls applied to a
freshly constructed session in which no `set_max_retry_attempts(v)` is called
with `v` below the current `retry_attempts`, `get_retry_attempts() <=
get_max_retry_attempts()` holds after every step (after every initial segment of
the sequence). -/
theorem C1_retry_attempts_le_max (ops : List RetryOp) (h : capNotLowered new ops = true)
    (k : Nat) :
    (run new (ops.take k)).get_retry_attempts ≤ (run new (ops.take k)).get_max_retry_attempts :=
  run_take_le_max ops new (by decide) h k

/-- C1 witness: a sequence that resets, increments, raises and lowers the cap
without undercutting the counter, observed after its fifth call. -/
theorem C1_retry_attempts_le_max_witness :
    capNotLowered new
        [RetryOp.increment, RetryOp.setMax 1, RetryOp.increment, RetryOp.setMax 200,
          RetryOp.increment, RetryOp.reset, RetryOp.setMax 0, RetryOp.increment] = true ∧
      (run new (List.take 5
        [RetryOp.increment, RetryOp.setMax 1, RetryOp.increment, RetryOp.setMax 200,
          RetryOp.increment, RetryOp.reset, RetryOp.setMax 0, RetryOp.increment])).get_retry_attempts ≤
      (run new (List.take 5
        [RetryOp.increment, RetryOp.setMax 1, RetryOp.increment, RetryOp.setMax 200,
          RetryOp.increment, RetryOp.reset, RetryOp.setMax 0, RetryOp.increment])).get_max_retry_attempts :=
  ⟨by decide, C1_retry_attempts_le_max _ (by decide) 5⟩

theorem increment_at_cap (s : ExtendedTransportProtocolSession)
    (h : s.retry_attempts = s.max_retry_attempts) : s.increment_retry_attempts = s := by
  simp [increment_retry_attempts, h]

/-- C2: for every session with `retry_attempts` equal to `max_retry_attempts`,
`increment_retry_attempts` returns the session unchanged, both getters keep
their values, and any number `n` of repeated calls is a no-op. -/
theorem C2_increment_at_cap_is_noop (s : ExtendedTransportProtocolSession)
    (h : s.get_retry_attempts = s.get_max_retry_attempts) (n : Nat) :
    s.increment_retry_attempts = s ∧
      s.increment_retry_attempts.get_retry_attempts = s.get_retry_attempts ∧
      s.increment_retry_attempts.get_max_retry_attempts = s.get_max_retry_attempts ∧
      increment_retry_attempts^[n] s = s := by
  have h1 : s.increment_retry_attempts = s := increment_at_cap s h
  refine ⟨h1, by rw [h1], by rw [h1], ?_⟩
  exact Function.iterate_fixed h1 n

/-- C2 witness: the default session after three increments sits at its cap 3. -/
theorem C2_increment_at_cap_is_noop_witness :
    get_retry_attempts ⟨3, 3⟩ = get_max_retry_attempts ⟨3, 3⟩ ∧
      increment_retry_attempts ⟨3, 3⟩ = ⟨3, 3⟩ ∧
      (increment_retry_attempts ⟨3, 3⟩).get_retry_attempts = get_retry_attempts ⟨3, 3⟩ ∧
      (increment_retry_attempts ⟨3, 3⟩).get_max_retry_attempts = get_max_retry_attempts ⟨3, 3⟩ ∧
      increment_retry_attempts^[4] ⟨3, 3⟩ = ⟨3, 3⟩ :=
  ⟨rfl, C2_increment_at_cap_is_noop ⟨3, 3⟩ rfl 4⟩

theorem on_timeout_below_cap (k m : Nat) (hk : k < m) (hm : m < 2 ^ 8) :
    on_timeout ⟨k, m⟩ = TimeoutOutcome.retried ⟨k + 1, m⟩ := by
  have hlt : k + 1 < 256 := by omega
  simp [on_timeout, get_retry_attempts, get_max_retry_attempts, increment_retry_attempts, hk,
    Nat.mod_eq_of_lt hlt]

theorem on_timeout_at_cap (m : Nat) : on_timeout ⟨m, m⟩ = TimeoutOutcome.aborted 3 := by
  simp [on_timeout, get_retry_attempts, get_max_retry_attempts]

theorem after_timeouts_from_zero (m : Nat) (hm : m < 2 ^ 8) (k : Nat) :
    after_timeouts ⟨0, m⟩ k = if k ≤ m then some ⟨k, m⟩ else none := by
  induction k with
  | zero => simp [after_timeouts]
  | succ k ih =>
    rw [after_timeouts, ih]
    by_cases h1 : k + 1 ≤ m
    · have h2 : k ≤ m := by omega
      simp only [h1, h2, if_true]
      rw [on_timeout_below_cap k m (by omega) hm]
    · by_cases h2 : k ≤ m
      · have h3 : k = m := by omega
        subst h3
        simp only [h1, h2, if_true, if_false]
        rw [on_timeout_at_cap]
      · simp only [h1, h2, if_false]

/-- C3: applying the timeout rule to a freshly constructed default session,
the retry counter reads 0, 1, 2, 3 after zero to three timeouts and the fourth
timeout takes the abort branch; and for every session with cap `m` (an 8-bit
value), after a reset the `k`-th state exists with counter `k` exactly for
`k <= m`, every timeout met with counter `k < m` is retried, and the timeout met
with counter `m` aborts with reason 3. -/
theorem C3_timeouts_retried_exactly_max_times :
    ((List.range 5).map fun k => (after_timeouts new k).map get_retry_attempts) =
        [some 0, some 1, some 2, some 3, none] ∧
      on_timeout ⟨3, 3⟩ = TimeoutOutcome.aborted 3 ∧
      ∀ s : ExtendedTransportProtocolSession, s.get_max_retry_attempts < 2 ^ 8 →
        (∀ k : Nat, after_timeouts s.reset_retry_attempts k =
          if k ≤ s.get_max_retry_attempts then some ⟨k, s.get_max_retry_attempts⟩ else none) ∧
        (∀ k : Nat, k < s.get_max_retry_attempts →
          on_timeout ⟨k, s.get_max_retry_attempts⟩ =
            TimeoutOutcome.retried ⟨k + 1, s.get_max_retry_attempts⟩) ∧
        on_timeout ⟨s.get_max_retry_attempts, s.get_max_retry_attempts⟩ =
          TimeoutOutcome.aborted 3 := by
  refine ⟨by decide, by decide, ?_⟩
  intro s hm
  refine ⟨fun k => ?_, fun k hk => on_timeout_below_cap k _ hk hm, on_timeout_at_cap _⟩
  exact after_timeouts_from_zero s.max_retry_attempts hm k

/-- C3 witness: a session with cap 2 that had already used one retry; after the
reset the second timeout is still retried and the third one aborts. -/
theorem C3_timeouts_retried_exactly_max_times_witness :
    get_max_retry_attempts ⟨1, 2⟩ < 2 ^ 8 ∧
      after_timeouts (reset_retry_attempts ⟨1, 2⟩) 2 = some ⟨2, 2⟩ ∧
      after_timeouts (reset_retry_attempts ⟨1, 2⟩) 3 = none :=
  ⟨by decide,
    by simpa using ((C3_timeouts_retried_exactly_max_times.2.2 ⟨1, 2⟩ (by decide)).1 2),
    by simpa using ((C3_timeouts_retried_exactly_max_times.2.2 ⟨1, 2⟩ (by decide)).1 3)⟩

/-- C8: for every session, `reset_retry_attempts` makes `get_retry_attempts()`
zero, leaves `get_max_retry_attempts()` as it was, and resetting twice gives the
same session as resetting once. -/
theorem C8_reset_retry_attempts (s : ExtendedTransportProtocolSession) :
    s.reset_retry_attempts.get_retry_attempts = 0 ∧
      s.reset_retry_attempts.get_max_retry_attempts = s.get_max_retry_attempts ∧
      s.reset_retry_attempts.reset_retry_attempts = s.reset_retry_attempts :=
  ⟨rfl, rfl, rfl⟩

end ExtendedTransportProtocolSession

end isobus

/-! ## Theorems: VT managed working set -/

namespace isobus

namespace VirtualTerminalServerManagedWorkingSet

theorem apply_retryCount_le (w : VirtualTerminalServerManagedWorkingSet) (op : TrackingOp)
    (h : w.retryCount ≤ MAX_RETRY_COUNT) : (op.apply w).retryCount ≤ MAX_RETRY_COUNT := by
  cases op with
  | increment =>
    simp only [TrackingOp.apply, increment_retry_count]
    split
    · have := Nat.mod_le (w.retryCount + 1) (2 ^ 8)
      simp only
      omega
    · exact h
  | reset => simp [TrackingOp.apply, reset_retry_count]
  | track n => simpa [TrackingOp.apply, track_failed_object_pool_transfer] using h
  | clear => simp [TrackingOp.apply, clear_failed_object_pool_transfer]

/-- The modelled operations keep `get_retry_count() <= MAX_RETRY_COUNT` along
every call sequence, whatever the value of the constant. -/
theorem run_retry_count_le (ops : List TrackingOp) :
    ∀ w : VirtualTerminalServerManagedWorkingSet, w.retryCount ≤ MAX_RETRY_COUNT →
      (run w ops).get_retry_count ≤ MAX_RETRY_COUNT := by
  induction ops with
  | nil => intro w h; simpa [run, get_retry_count] using h
  | cons op ops ih =>
    intro w h
    have := ih (op.apply w) (apply_retryCount_le w op h)
    simpa [run] using this

/-- An increment at the cap leaves the working set unchanged. -/
theorem increment_retry_count_at_cap (w : VirtualTerminalServerManagedWorkingSet)
    (h : w.retryCount = MAX_RETRY_COUNT) : w.increment_retry_count = w := by
  simp [increment_retry_count, h]

/-- C5 (evaluation of the code): the header defines `MAX_RETRY_COUNT` as 3,
which is not the value 5 that the test `TestMaxRetryCount` expects. -/
theorem C5_MAX_RETRY_COUNT_is_three : MAX_RETRY_COUNT = 3 ∧ MAX_RETRY_COUNT ≠ 5 := by
  decide

/-- C6 (evaluation of the code): seven `increment_retry_count` calls on a new
working set give `get_retry_count() == 3`, the header's `MAX_RETRY_COUNT`, and
not 5. -/
theorem C6_seven_increments_saturate_at_three :
    (increment_retry_count^[7] new).get_retry_count = 3 ∧
      (increment_retry_count^[7] new).get_retry_count = MAX_RETRY_COUNT ∧
      (increment_retry_count^[7] new).get_retry_count ≠ 5 := by
  decide

/-- C7: a new working set has no failed transfer and retry count 0; for every
32-bit size `n > 0` and every working set `w`, tracking a failed transfer of
size `n` makes `has_failed_object_pool_transfer()` true with
`get_failed_object_pool_size() == n` and the retry count of `w`; clearing any
working set `v` gives no failed transfer, failed size 0 and retry count 0, and a
second clear changes nothing. -/
theorem C7_failed_transfer_lifecycle :
    new.has_failed_object_pool_transfer = false ∧ new.get_retry_count = 0 ∧
      (∀ (w : VirtualTerminalServerManagedWorkingSet) (n : Nat), 0 < n → n < 2 ^ 32 →
        (w.track_failed_object_pool_transfer n).has_failed_object_pool_transfer = true ∧
        (w.track_failed_object_pool_transfer n).get_failed_object_pool_size = n ∧
        (w.track_failed_object_pool_transfer n).get_retry_count = w.get_retry_count) ∧
      ∀ v : VirtualTerminalServerManagedWorkingSet,
        v.clear_failed_object_pool_transfer.has_failed_object_pool_transfer = false ∧
        v.clear_failed_object_pool_transfer.get_failed_object_pool_size = 0 ∧
        v.clear_failed_object_pool_transfer.get_retry_count = 0 ∧
        v.clear_failed_object_pool_transfer.clear_failed_object_pool_transfer =
          v.clear_failed_object_pool_transfer := by
  refine ⟨by decide, by decide, ?_, ?_⟩
  · intro w n h0 h32
    have hn : n % 2 ^ 32 = n := Nat.mod_eq_of_lt h32
    refine ⟨?_, ?_, rfl⟩
    · simp only [has_failed_object_pool_transfer, track_failed_object_pool_transfer, hn]
      exact decide_eq_true h0
    · simp only [get_failed_object_pool_size, track_failed_object_pool_transfer, hn]
  · intro v
    exact ⟨by simp [has_failed_object_pool_transfer, clear_failed_object_pool_transfer],
      rfl, rfl, rfl⟩

/-- C7 witness: the test's scenario, a failed transfer of 2048 bytes tracked
on a working set that has already counted two retries. -/
theorem C7_failed_transfer_lifecycle_witness :
    (0 < 2048 ∧ 2048 < 2 ^ 32) ∧
      (track_failed_object_pool_transfer (increment_retry_count^[2] new)
          2048).has_failed_object_pool_transfer = true ∧
      (track_failed_object_pool_transfer (increment_retry_count^[2] new)
          2048).get_failed_object_pool_size = 2048 ∧
      (track_failed_object_pool_transfer (increment_retry_count^[2] new)
          2048).get_retry_count = get_retry_count (increment_retry_count^[2] new) :=
  ⟨by decide,
    C7_failed_transfer_lifecycle.2.2.1 (increment_retry_count^[2] new) 2048 (by decide)
      (by decide)⟩

end VirtualTerminalServerManagedWorkingSet

end isobus

/-! ## Theorems: Innomaker USB2CAN Windows plugin -/

namespace InnomakerUSB2CANWindowsPlugin

theorem byteAt_lt (recvBuffer : List Nat) (h : ∀ b ∈ recvBuffer, b < 2 ^ 8) (i : Nat) :
    byteAt recvBuffer i < 2 ^ 8 := by
  unfold byteAt
  by_cases hi : i < recvBuffer.length
  · rw [List.getD_eq_getElem _ _ hi]
    exact h _ (List.getElem_mem hi)
  · rw [List.getD_eq_default _ _ (by omega)]
    decide

theorem or_shift_bytes (a b c d : Nat) (ha : a < 2 ^ 8) (hb : b < 2 ^ 8) (hc : c < 2 ^ 8)
    (hd : d < 2 ^ 8) :
    a ||| ((b <<< 8) % 2 ^ 32) ||| ((c <<< 16) % 2 ^ 32) ||| ((d <<< 24) % 2 ^ 32) =
      a + b * 2 ^ 8 + c * 2 ^ 16 + d * 2 ^ 24 := by
  have e1 : (b <<< 8) % 2 ^ 32 = 2 ^ 8 * b := by
    rw [Nat.shiftLeft_eq, Nat.mod_eq_of_lt (by omega)]; omega
  have e2 : (c <<< 16) % 2 ^ 32 = 2 ^ 16 * c := by
    rw [Nat.shiftLeft_eq, Nat.mod_eq_of_lt (by omega)]; omega
  have e3 : (d <<< 24) % 2 ^ 32 = 2 ^ 24 * d := by
    rw [Nat.shiftLeft_eq, Nat.mod_eq_of_lt (by omega)]; omega
  rw [e1, e2, e3]
  rw [Nat.lor_comm a, ← Nat.mul_add_lt_is_or ha]
  rw [Nat.lor_comm _ (2 ^ 16 * c), ← Nat.mul_add_lt_is_or (by omega)]
  rw [Nat.lor_comm _ (2 ^ 24 * d), ← Nat.mul_add_lt_is_or (by omega)]
  omega

/-- On a buffer of bytes the four-byte read is the little-endian value. -/
theorem readU32_eq (recvBuffer : List Nat) (h : ∀ b ∈ recvBuffer, b < 2 ^ 8) (o : Nat) :
    readU32 recvBuffer o =
      byteAt recvBuffer o + byteAt recvBuffer (o + 1) * 2 ^ 8 +
        byteAt recvBuffer (o + 2) * 2 ^ 16 + byteAt recvBuffer (o + 3) * 2 ^ 24 :=
  or_shift_bytes _ _ _ _ (byteAt_lt _ h _) (byteAt_lt _ h _) (byteAt_lt _ h _) (byteAt_lt _ h _)

theorem read_frame_of_device (driverInstance : InnoMakerUsb2CanLib)
    (self : InnomakerUSB2CANWindowsPlugin) (canFrame : isobus.HardwareInterfaceCANFrame)
    (device : InnoMakerUsb2CanLib.InnoMakerDevice)
    (hdev : driverInstance.getInnoMakerDevice self.myChannel = some device) :
    (read_frame driverInstance self canFrame).2.identifier =
        readU32 (receivedBuffer driverInstance device) 4 ∧
      (read_frame driverInstance self canFrame).2.dataLength =
        byteAt (receivedBuffer driverInstance device) 8 := by
  simp [read_frame, hdev, receivedBuffer]

/-- C9 (evaluation of the code): a plugin on channel 0 of a driver that has no
device on that channel is not connected, yet `get_is_valid()` returns `true`. -/
theorem C9_get_is_valid_true_without_device :
    noDeviceDriver.getInnoMakerDevice (InnomakerUSB2CANWindowsPlugin.mk 0).myChannel = none ∧
      get_is_valid (InnomakerUSB2CANWindowsPlugin.mk 0) = true := by
  decide

/-- C10 (as the claim states it, refuted): when the driver hands back the
24-byte buffer `oversizedBuffer` (`can_id` bytes `00 00 00 20`, `can_dlc` byte
`09`), `read_frame` produces identifier `2^29` and dataLength 9, so neither
`identifier < 2^29` nor `dataLength <= 8` holds. -/
theorem C10_read_frame_passes_raw_identifier_and_length :
    IsHostFrameBuffer oversizedBuffer ∧
      (read_frame (fixedBufferDriver oversizedBuffer) (InnomakerUSB2CANWindowsPlugin.mk 0)
        blankFrame).2.identifier = 2 ^ 29 ∧
      (read_frame (fixedBufferDriver oversizedBuffer) (InnomakerUSB2CANWindowsPlugin.mk 0)
        blankFrame).2.dataLength = 9 ∧
      ¬ ((read_frame (fixedBufferDriver oversizedBuffer) (InnomakerUSB2CANWindowsPlugin.mk 0)
          blankFrame).2.identifier < 2 ^ 29 ∧
        (read_frame (fixedBufferDriver oversizedBuffer) (InnomakerUSB2CANWindowsPlugin.mk 0)
          blankFrame).2.dataLength ≤ 8) := by
  decide

/-- C10 (amended): when a device exists and the driver hands back a buffer of
24 bytes, the frame produced by `read_frame` has an identifier below `2^32` and
a dataLength below `2^8`; the identifier is below `2^29` exactly when byte 7 of
the buffer is below 32, and the dataLength is at most 8 exactly when byte 8 of
the buffer is at most 8. -/
theorem C10_read_frame_identifier_and_length_ranges (driverInstance : InnoMakerUsb2CanLib)
    (self : InnomakerUSB2CANWindowsPlugin) (canFrame : isobus.HardwareInterfaceCANFrame)
    (device : InnoMakerUsb2CanLib.InnoMakerDevice)
    (hdev : driverInstance.getInnoMakerDevice self.myChannel = some device)
    (hbuf : IsHostFrameBuffer (receivedBuffer driverInstance device)) :
    (read_frame driverInstance self canFrame).2.identifier < 2 ^ 32 ∧
      (read_frame driverInstance self canFrame).2.dataLength < 2 ^ 8 ∧
      ((read_frame driverInstance self canFrame).2.identifier < 2 ^ 29 ↔
        byteAt (receivedBuffer driverInstance device) 7 < 32) ∧
      ((read_frame driverInstance self canFrame).2.dataLength ≤ 8 ↔
        byteAt (receivedBuffer driverInstance device) 8 ≤ 8) := by
  obtain ⟨hid, hlen⟩ := read_frame_of_device driverInstance self canFrame device hdev
  rw [hid, hlen, readU32_eq _ hbuf.2 4]
  have h4 := byteAt_lt _ hbuf.2 4
  have h5 := byteAt_lt _ hbuf.2 (4 + 1)
  have h6 := byteAt_lt _ hbuf.2 (4 + 2)
  have h7 := byteAt_lt _ hbuf.2 (4 + 3)
  have h8 := byteAt_lt _ hbuf.2 8
  have e7 : byteAt (receivedBuffer driverInstance device) 7 =
      byteAt (receivedBuffer driverInstance device) (4 + 3) := rfl
  rw [e7]
  refine ⟨by omega, h8, ⟨fun h => by omega, fun h => by omega⟩, Iff.rfl⟩

/-- C10 witness: the driver hands back `sampleBuffer`, a frame with identifier
`0x18EAFFFE` and eight data bytes. -/
theorem C10_read_frame_identifier_and_length_ranges_witness :
    ((fixedBufferDriver sampleBuffer).getInnoMakerDevice
          (InnomakerUSB2CANWindowsPlugin.mk 0).myChannel = some ⟨0⟩ ∧
        IsHostFrameBuffer (receivedBuffer (fixedBufferDriver sampleBuffer) ⟨0⟩)) ∧
      (read_frame (fixedBufferDriver sampleBuffer) (InnomakerUSB2CANWindowsPlugin.mk 0)
        blankFrame).2.identifier < 2 ^ 32 ∧
      (read_frame (fixedBufferDriver sampleBuffer) (InnomakerUSB2CANWindowsPlugin.mk 0)
        blankFrame).2.dataLength < 2 ^ 8 ∧
      ((read_frame (fixedBufferDriver sampleBuffer) (InnomakerUSB2CANWindowsPlugin.mk 0)
          blankFrame).2.identifier < 2 ^ 29 ↔
        byteAt (receivedBuffer (fixedBufferDriver sampleBuffer) ⟨0⟩) 7 < 32) ∧
      ((read_frame (fixedBufferDriver sampleBuffer) (InnomakerUSB2CANWindowsPlugin.mk 0)
          blankFrame).2.dataLength ≤ 8 ↔
        byteAt (receivedBuffer (fixedBufferDriver sampleBuffer) ⟨0⟩) 8 ≤ 8) :=
  ⟨⟨rfl, by decide⟩,
    C10_read_frame_identifier_and_length_ranges (fixedBufferDriver sampleBuffer)
      (InnomakerUSB2CANWindowsPlugin.mk 0) blankFrame ⟨0⟩ rfl (by decide)⟩

/-- C11: when the device lookup for the plugin's channel returns null,
`read_frame` returns `false` and the caller's frame is exactly as it was; when
the lookup returns a device, `read_frame` returns the boolean that the driver's
receive call returned. -/
theorem C11_read_frame_return_value (driverInstance : InnoMakerUsb2CanLib)
    (self : InnomakerUSB2CANWindowsPlugin) (canFrame : isobus.HardwareInterfaceCANFrame) :
    (driverInstance.getInnoMakerDevice self.myChannel = none →
        (read_frame driverInstance self canFrame).1 = false ∧
        (read_frame driverInstance self canFrame).2 = canFrame) ∧
      ∀ device : InnoMakerUsb2CanLib.InnoMakerDevice,
        driverInstance.getInnoMakerDevice self.myChannel = some device →
          (read_frame driverInstance self canFrame).1 = receiveResult driverInstance device := by
  constructor
  · intro hnone
    simp [read_frame, hnone]
  · intro device hdev
    simp [read_frame, hdev, receiveResult]

/-- C11 witness: a driver without devices leaves `earlierFrame` alone and
returns `false`; a driver whose receive call succeeds makes `read_frame` return
`true`. -/
theorem C11_read_frame_return_value_witness :
    (noDeviceDriver.getInnoMakerDevice (InnomakerUSB2CANWindowsPlugin.mk 0).myChannel = none ∧
        (read_frame noDeviceDriver (InnomakerUSB2CANWindowsPlugin.mk 0) earlierFrame).1 = false ∧
        (read_frame noDeviceDriver (InnomakerUSB2CANWindowsPlugin.mk 0) earlierFrame).2 =
          earlierFrame) ∧
      ((fixedBufferDriver sampleBuffer).getInnoMakerDevice
          (InnomakerUSB2CANWindowsPlugin.mk 0).myChannel = some ⟨0⟩ ∧
        (read_frame (fixedBufferDriver sampleBuffer) (InnomakerUSB2CANWindowsPlugin.mk 0)
          earlierFrame).1 = receiveResult (fixedBufferDriver sampleBuffer) ⟨0⟩ ∧
        receiveResult (fixedBufferDriver sampleBuffer) ⟨0⟩ = true) :=
  ⟨⟨rfl, (C11_read_frame_return_value noDeviceDriver (InnomakerUSB2CANWindowsPlugin.mk 0)
      earlierFrame).1 rfl⟩,
    ⟨rfl, (C11_read_frame_return_value (fixedBufferDriver sampleBuffer)
      (InnomakerUSB2CANWindowsPlugin.mk 0) earlierFrame).2 ⟨0⟩ rfl, rfl⟩⟩

end InnomakerUSB2CANWindowsPlugin

/-! ## Theorems: ETP session, counting and wrap-around -/

namespace isobus

namespace ExtendedTransportProtocolSession

theorem increment_above_cap (s : ExtendedTransportProtocolSession)
    (h : s.max_retry_attempts ≤ s.retry_attempts) : s.increment_retry_attempts = s := by
  have : ¬ s.retry_attempts < s.max_retry_attempts := by omega
  simp [increment_retry_attempts, this]

theorem iterate_increment (r m : Nat) (hle : r ≤ m) (hm : m < 2 ^ 8) (k : Nat) :
    increment_retry_attempts^[k] ⟨r, m⟩ = ⟨min (r + k) m, m⟩ := by
  induction k with
  | zero => simp [Nat.min_eq_left hle]
  | succ k ih =>
    rw [Function.iterate_succ_apply', ih]
    by_cases hlt : r + k < m
    · have h1 : min (r + k) m = r + k := by omega
      have h2 : min (r + (k + 1)) m = r + k + 1 := by omega
      have h3 : (r + k + 1) % 2 ^ 8 = r + k + 1 := Nat.mod_eq_of_lt (by omega)
      rw [h1, h2]
      simp only [increment_retry_attempts, hlt, if_true, h3]
    · have h1 : min (r + k) m = m := by omega
      have h2 : min (r + (k + 1)) m = m := by omega
      rw [h1, h2]
      exact increment_above_cap ⟨m, m⟩ (Nat.le_refl m)

theorem iterate_increment_retry_attempts (s : ExtendedTransportProtocolSession)
    (hm : s.max_retry_attempts < 2 ^ 8) (k : Nat) :
    (increment_retry_attempts^[k] s).retry_attempts =
      if s.retry_attempts ≤ s.max_retry_attempts then
        min (s.retry_attempts + k) s.max_retry_attempts
      else s.retry_attempts := by
  by_cases hle : s.retry_attempts ≤ s.max_retry_attempts
  · have := iterate_increment s.retry_attempts s.max_retry_attempts hle hm k
    simp only [hle, if_true]
    rw [show s = ⟨s.retry_attempts, s.max_retry_attempts⟩ from rfl, this]
  · simp only [hle, if_false]
    rw [Function.iterate_fixed (increment_above_cap s (by omega)) k]

/-- C4 (as the claim states it, refuted): on a freshly constructed default
session, a reset followed by five increments reads 3 and not 5 (and four
increments read 3 and not 4). -/
theorem C4_five_increments_read_three :
    (increment_retry_attempts^[5] new.reset_retry_attempts).get_retry_attempts = 3 ∧
      ¬ ((increment_retry_attempts^[5] new.reset_retry_attempts).get_retry_attempts = 5) ∧
      ¬ ((increment_retry_attempts^[4] new.reset_retry_attempts).get_retry_attempts = 4) := by
  decide

/-- C4 (amended): a freshly constructed default session reads 0, and after a
reset followed by `n` increments it reads `min(n, 3)`, the default cap being 3:
`n` for `n` from 0 to 3 and 3 from then on, so 0, 1, 2, 3, 3, 3 for `n` from 0
to 5. -/
theorem C4_default_session_counts_up_to_three :
    new.get_retry_attempts = 0 ∧
      (∀ n : Nat,
        (increment_retry_attempts^[n] new.reset_retry_attempts).get_retry_attempts = min n 3) ∧
      ((List.range 6).map fun n =>
        (increment_retry_attempts^[n] new.reset_retry_attempts).get_retry_attempts) =
        [0, 1, 2, 3, 3, 3] := by
  refine ⟨rfl, fun n => ?_, by decide⟩
  have h := iterate_increment 0 3 (by decide) (by decide) n
  have e : new.reset_retry_attempts = ⟨0, 3⟩ := rfl
  rw [e, h]
  simp only [get_retry_attempts]
  omega

/-- C12: for every session whose cap `m` is an 8-bit value and every `k`, a
reset followed by `k` increments reads `min(k, m)`; from a counter `r <= m`,
`k` increments read `min(r + k, m)`; and the reading never decreases as more
increments are applied. -/
theorem C12_increments_count_up_to_cap (s : ExtendedTransportProtocolSession)
    (hm : s.get_max_retry_attempts < 2 ^ 8) :
    (∀ k : Nat, (increment_retry_attempts^[k] s.reset_retry_attempts).get_retry_attempts =
        min k s.get_max_retry_attempts) ∧
      (s.get_retry_attempts ≤ s.get_max_retry_attempts → ∀ k : Nat,
        (increment_retry_attempts^[k] s).get_retry_attempts =
          min (s.get_retry_attempts + k) s.get_max_retry_attempts) ∧
      (∀ j k : Nat, j ≤ k →
        (increment_retry_attempts^[j] s).get_retry_attempts ≤
          (increment_retry_attempts^[k] s).get_retry_attempts) := by
  refine ⟨fun k => ?_, fun hle k => ?_, fun j k hjk => ?_⟩
  · have := iterate_increment 0 s.max_retry_attempts (Nat.zero_le _) hm k
    simp only [reset_retry_attempts, get_retry_attempts, get_max_retry_attempts, this]
    omega
  · have := iterate_increment_retry_attempts s hm k
    simp only [get_retry_attempts, get_max_retry_attempts] at hle ⊢
    rw [this, if_pos hle]
  · have hj := iterate_increment_retry_attempts s hm j
    have hk := iterate_increment_retry_attempts s hm k
    simp only [get_retry_attempts]
    rw [hj, hk]
    split <;> omega

/-- C12 witness: a session with cap 5 that has used two retries; seven more
increments stop at 5, and after a reset seven increments also read 5. -/
theorem C12_increments_count_up_to_cap_witness :
    get_max_retry_attempts ⟨2, 5⟩ < 2 ^ 8 ∧
      (increment_retry_attempts^[7] (reset_retry_attempts ⟨2, 5⟩)).get_retry_attempts =
        min 7 (get_max_retry_attempts ⟨2, 5⟩) ∧
      (get_retry_attempts ⟨2, 5⟩ ≤ get_max_retry_attempts ⟨2, 5⟩ ∧
        (increment_retry_attempts^[7] ⟨2, 5⟩).get_retry_attempts =
          min (get_retry_attempts ⟨2, 5⟩ + 7) (get_max_retry_attempts ⟨2, 5⟩)) ∧
      (increment_retry_attempts^[1] ⟨2, 5⟩).get_retry_attempts ≤
        (increment_retry_attempts^[4] ⟨2, 5⟩).get_retry_attempts :=
  ⟨by decide,
    (C12_increments_count_up_to_cap ⟨2, 5⟩ (by decide)).1 7,
    ⟨by decide, (C12_increments_count_up_to_cap ⟨2, 5⟩ (by decide)).2.1 (by decide) 7⟩,
    (C12_increments_count_up_to_cap ⟨2, 5⟩ (by decide)).2.2 1 4 (by decide)⟩

/-- C14: for every session whose cap is an 8-bit value and every counter
value, `increment_retry_attempts` leaves the cap alone and yields either the old
counter or the old counter plus one with `old + 1 < 2^8`, so the modulo of the
8-bit increment never takes effect, and an 8-bit counter stays 8-bit; with cap
255 and counter 255 the session is unchanged, and with cap 0 no number of
increments changes the counter (it stays 0 from 0). -/
theorem C14_retry_counter_never_wraps :
    (∀ s : ExtendedTransportProtocolSession, s.get_max_retry_attempts < 2 ^ 8 →
      (s.increment_retry_attempts.get_retry_attempts = s.get_retry_attempts ∨
        (s.increment_retry_attempts.get_retry_attempts = s.get_retry_attempts + 1 ∧
          s.get_retry_attempts + 1 < 2 ^ 8)) ∧
      s.increment_retry_attempts.get_max_retry_attempts = s.get_max_retry_attempts ∧
      (s.get_retry_attempts < 2 ^ 8 → s.increment_retry_attempts.get_retry_attempts < 2 ^ 8)) ∧
      increment_retry_attempts ⟨255, 255⟩ = ⟨255, 255⟩ ∧
      (∀ r k : Nat, increment_retry_attempts^[k] ⟨r, 0⟩ = ⟨r, 0⟩) ∧
      (∀ k : Nat, (increment_retry_attempts^[k] ⟨0, 0⟩).get_retry_attempts = 0) := by
  have hzero : ∀ r k : Nat, increment_retry_attempts^[k] ⟨r, 0⟩ = ⟨r, 0⟩ := fun r k =>
    Function.iterate_fixed (increment_above_cap ⟨r, 0⟩ (Nat.zero_le r)) k
  refine ⟨fun s hm => ?_, by decide, hzero, fun k => by rw [hzero 0 k]; rfl⟩
  simp only [get_retry_attempts, get_max_retry_attempts] at hm ⊢
  by_cases hlt : s.retry_attempts < s.max_retry_attempts
  · have h3 : (s.retry_attempts + 1) % 2 ^ 8 = s.retry_attempts + 1 :=
      Nat.mod_eq_of_lt (by omega)
    have hinc : s.increment_retry_attempts = ⟨s.retry_attempts + 1, s.max_retry_attempts⟩ := by
      simp only [increment_retry_attempts, hlt, if_true, h3]
    rw [hinc]
    have hno : s.retry_attempts + 1 < 2 ^ 8 := by omega
    exact ⟨Or.inr ⟨rfl, hno⟩, rfl, fun _ => hno⟩
  · rw [increment_above_cap s (by omega)]
    exact ⟨Or.inl rfl, rfl, fun h => h⟩

/-- C14 witness: cap 255 and counter 254, the last increment that still
counts; it reads 255 and not 0. -/
theorem C14_retry_counter_never_wraps_witness :
    get_max_retry_attempts ⟨254, 255⟩ < 2 ^ 8 ∧
      ((increment_retry_attempts ⟨254, 255⟩).get_retry_attempts = get_retry_attempts ⟨254, 255⟩ ∨
        ((increment_retry_attempts ⟨254, 255⟩).get_retry_attempts =
            get_retry_attempts ⟨254, 255⟩ + 1 ∧
          get_retry_attempts ⟨254, 255⟩ + 1 < 2 ^ 8)) :=
  ⟨by decide, (C14_retry_counter_never_wraps.1 ⟨254, 255⟩ (by decide)).1⟩

end ExtendedTransportProtocolSession

end isobus

/-! ## Theorems: Innomaker USB2CAN Windows plugin, frame decoding -/

namespace InnomakerUSB2CANWindowsPlugin

/-- With a device, `read_frame` returns the receive call's boolean and a frame
all of whose members come from the received buffer. -/
theorem read_frame_eq_of_device (driverInstance : InnoMakerUsb2CanLib)
    (self : InnomakerUSB2CANWindowsPlugin) (canFrame : isobus.HardwareInterfaceCANFrame)
    (device : InnoMakerUsb2CanLib.InnoMakerDevice)
    (hdev : driverInstance.getInnoMakerDevice self.myChannel = some device) :
    read_frame driverInstance self canFrame =
      (receiveResult driverInstance device,
        { identifier := readU32 (receivedBuffer driverInstance device) 4
          channel := byteAt (receivedBuffer driverInstance device) 9
          dataLength := byteAt (receivedBuffer driverInstance device) 8
          data := (List.range 8).map fun i => byteAt (receivedBuffer driverInstance device) (12 + i)
          timestamp_us := readU32 (receivedBuffer driverInstance device) 20
          isExtendedFrame := true }) := by
  simp [read_frame, hdev, receivedBuffer, receiveResult]

theorem littleEndian_sum (v b0 b1 b2 b3 : Nat) (hv : v < 2 ^ 32)
    (h0 : b0 = littleEndianByte v 0) (h1 : b1 = littleEndianByte v 1)
    (h2 : b2 = littleEndianByte v 2) (h3 : b3 = littleEndianByte v 3) :
    b0 + b1 * 2 ^ 8 + b2 * 2 ^ 16 + b3 * 2 ^ 24 = v := by
  simp only [littleEndianByte] at h0 h1 h2 h3
  norm_num at h0 h1 h2 h3 hv ⊢
  omega

/-- C13: when a device exists and the driver hands back a buffer of bytes,
`read_frame` decodes it by fixed layout: identifier is the little-endian value
of bytes 4..7, dataLength is byte 8, channel is byte 9, the eight data bytes
are bytes 12..19, timestamp_us is the little-endian value of bytes 20..23 and
isExtendedFrame is true; hence for every 32-bit `v`, if bytes 4..7 are the
little-endian bytes of `v`, the identifier is `v`. -/
theorem C13_read_frame_fixed_layout (driverInstance : InnoMakerUsb2CanLib)
    (self : InnomakerUSB2CANWindowsPlugin) (canFrame : isobus.HardwareInterfaceCANFrame)
    (device : InnoMakerUsb2CanLib.InnoMakerDevice)
    (hdev : driverInstance.getInnoMakerDevice self.myChannel = some device)
    (hbuf : IsHostFrameBuffer (receivedBuffer driverInstance device)) :
    (read_frame driverInstance self canFrame).2.identifier =
        byteAt (receivedBuffer driverInstance device) 4 +
          byteAt (receivedBuffer driverInstance device) 5 * 2 ^ 8 +
          byteAt (receivedBuffer driverInstance device) 6 * 2 ^ 16 +
          byteAt (receivedBuffer driverInstance device) 7 * 2 ^ 24 ∧
      (read_frame driverInstance self canFrame).2.dataLength =
        byteAt (receivedBuffer driverInstance device) 8 ∧
      (read_frame driverInstance self canFrame).2.channel =
        byteAt (receivedBuffer driverInstance device) 9 ∧
      (read_frame driverInstance self canFrame).2.data.length = 8 ∧
      (∀ i : Nat, i < 8 → (read_frame driverInstance self canFrame).2.data.getD i 0 =
        byteAt (receivedBuffer driverInstance device) (12 + i)) ∧
      (read_frame driverInstance self canFrame).2.timestamp_us =
        byteAt (receivedBuffer driverInstance device) 20 +
          byteAt (receivedBuffer driverInstance device) 21 * 2 ^ 8 +
          byteAt (receivedBuffer driverInstance device) 22 * 2 ^ 16 +
          byteAt (receivedBuffer driverInstance device) 23 * 2 ^ 24 ∧
      (read_frame driverInstance self canFrame).2.isExtendedFrame = true ∧
      ∀ v : Nat, v < 2 ^ 32 →
        (∀ i : Nat, i < 4 →
          byteAt (receivedBuffer driverInstance device) (4 + i) = littleEndianByte v i) →
        (read_frame driverInstance self canFrame).2.identifier = v := by
  rw [read_frame_eq_of_device driverInstance self canFrame device hdev]
  have hid := readU32_eq _ hbuf.2 4
  have hts := readU32_eq _ hbuf.2 20
  refine ⟨hid, rfl, rfl, by simp, ?_, hts, rfl, ?_⟩
  · intro i hi
    simp only
    interval_cases i <;> rfl
  · intro v hv hle
    simp only
    rw [hid]
    exact littleEndian_sum v _ _ _ _ hv (hle 0 (by omega)) (hle 1 (by omega)) (hle 2 (by omega))
      (hle 3 (by omega))

/-- C13 witness: the driver hands back `sampleBuffer`, whose bytes 4..7 are
`FE FF EA 18`, the little-endian bytes of `0x18EAFFFE`. -/
theorem C13_read_frame_fixed_layout_witness :
    ((fixedBufferDriver sampleBuffer).getInnoMakerDevice
          (InnomakerUSB2CANWindowsPlugin.mk 0).myChannel = some ⟨0⟩ ∧
        IsHostFrameBuffer (receivedBuffer (fixedBufferDriver sampleBuffer) ⟨0⟩) ∧
        0x18EAFFFE < 2 ^ 32 ∧
        ∀ i : Nat, i < 4 →
          byteAt (receivedBuffer (fixedBufferDriver sampleBuffer) ⟨0⟩) (4 + i) =
            littleEndianByte 0x18EAFFFE i) ∧
      (read_frame (fixedBufferDriver sampleBuffer) (InnomakerUSB2CANWindowsPlugin.mk 0)
        blankFrame).2.identifier = 0x18EAFFFE :=
  ⟨⟨rfl, by decide, by decide, by decide⟩,
    (C13_read_frame_fixed_layout (fixedBufferDriver sampleBuffer)
      (InnomakerUSB2CANWindowsPlugin.mk 0) blankFrame ⟨0⟩ rfl (by decide)).2.2.2.2.2.2.2
      0x18EAFFFE (by decide) (by decide)⟩

/-- C15: when a device exists and the driver's receive call returns `false`
and leaves the zero-filled buffer as it was, `read_frame` returns `false` and
the caller's frame becomes `zeroFilledFrame` (identifier 0, dataLength 0,
channel 0, eight data bytes 0, timestamp_us 0, isExtendedFrame true) whatever
it held before; so the frame is unchanged only if it already was that frame. -/
theorem C15_read_frame_overwrites_on_failed_receive (driverInstance : InnoMakerUsb2CanLib)
    (self : InnomakerUSB2CANWindowsPlugin) (canFrame : isobus.HardwareInterfaceCANFrame)
    (device : InnoMakerUsb2CanLib.InnoMakerDevice)
    (hdev : driverInstance.getInnoMakerDevice self.myChannel = some device)
    (hfail : driverInstance.recvInnoMakerDeviceBuf device
        (List.replicate InnoMakerUsb2CanLib.hostFrameSize 0)
        InnoMakerUsb2CanLib.hostFrameSize 1000 =
      (false, List.replicate InnoMakerUsb2CanLib.hostFrameSize 0)) :
    read_frame driverInstance self canFrame = (false, zeroFilledFrame) ∧
      ((read_frame driverInstance self canFrame).2 = canFrame ↔ canFrame = zeroFilledFrame) := by
  have hres : receiveResult driverInstance device = false := by
    simp only [receiveResult, hfail]
  have hrecv : receivedBuffer driverInstance device =
      List.replicate InnoMakerUsb2CanLib.hostFrameSize 0 := by
    simp only [receivedBuffer, hfail]
  have hmain : read_frame driverInstance self canFrame = (false, zeroFilledFrame) := by
    rw [read_frame_eq_of_device driverInstance self canFrame device hdev, hres, hrecv]
    rfl
  refine ⟨hmain, ?_⟩
  rw [hmain]
  exact ⟨fun h => h.symm, fun h => h.symm⟩

/-- C15 witness: `idleDriver` has a device whose receive call fails without
touching the buffer; the caller's `earlierFrame` is replaced by
`zeroFilledFrame`, which is a different frame. -/
theorem C15_read_frame_overwrites_on_failed_receive_witness :
    (idleDriver.getInnoMakerDevice (InnomakerUSB2CANWindowsPlugin.mk 0).myChannel = some ⟨0⟩ ∧
        idleDriver.recvInnoMakerDeviceBuf ⟨0⟩
            (List.replicate InnoMakerUsb2CanLib.hostFrameSize 0)
            InnoMakerUsb2CanLib.hostFrameSize 1000 =
          (false, List.replicate InnoMakerUsb2CanLib.hostFrameSize 0)) ∧
      read_frame idleDriver (InnomakerUSB2CANWindowsPlugin.mk 0) earlierFrame =
        (false, zeroFilledFrame) ∧
      (read_frame idleDriver (InnomakerUSB2CANWindowsPlugin.mk 0) earlierFrame).2 ≠
        earlierFrame :=
  ⟨⟨rfl, rfl⟩,
    (C15_read_frame_overwrites_on_failed_receive idleDriver (InnomakerUSB2CANWindowsPlugin.mk 0)
      earlierFrame ⟨0⟩ rfl rfl).1,
    by decide⟩

end InnomakerUSB2CANWindowsPlugin
